import Mathlib

/-
  Verification of the streaming connection lifecycle of pytwitter.StreamApi
  (src/pytwitter/streaming.py), as a shallow embedding.

  Modelling conventions:
  - The transport is an oracle: a list of `Attempt` values gives, for each
    successive `session.get` call, either a transport-level fault (the call
    raises) or a response with a status code and the list of lines yielded by
    `iter_lines`, plus a flag saying whether `iter_lines` raises a transport
    fault after yielding those lines.
  - The shared mutable `running` flag is an oracle `flag : Nat -> Bool` giving
    the value observed by each successive read of `self.running` (the read in
    the `while` condition and the read after each processed line both consume
    one index). `disconnect` corresponds to the oracle turning false from some
    index on.
  - Python exceptions are values of `PyExc`; code that can raise returns the
    exception as data, and the `try/except/finally` of `_connect` is the
    explicit handling in `connect`.
  - Callback invocations (`on_data`, `on_tweet`, `on_keep_alive`,
    `on_request_error`), connection openings and `time.sleep` calls are
    recorded in order as `Event`s, so that ordering and counting claims can be
    stated over the trace.
-/

namespace PyTwitter

/-- The content of one non-blank line, as seen by `StreamApi.on_data`
(streaming.py lines 130-143): either `json.loads` fails (`malformed`), or it
yields an object, of which the model keeps the three facts `on_data` can
branch on: whether the key `errors` is present, whether the key `data` is
present (read when `return_json` is true), and whether the user-supplied
`on_tweet` callback raises when invoked on it. -/
inductive LineData where
  | malformed : LineData
  | json (hasErrors : Bool) (hasData : Bool) (tweetRaises : Bool) : LineData
deriving DecidableEq, Repr

/-- One line yielded by `resp.iter_lines` (streaming.py line 106): blank
(falsy, the keep-alive signal) or a payload. A blank line carries whether the
user-supplied `on_keep_alive` callback raises when invoked. -/
inductive Line where
  | blank (keepAliveRaises : Bool) : Line
  | payload (d : LineData) : Line
deriving DecidableEq, Repr

/-- Python exception values that can arise in `_connect`. -/
inductive PyExc where
  | pyTwitterError (msg : String) : PyExc
  | jsonDecodeError : PyExc
  | keyError : PyExc
  | callbackError : PyExc
  | requestException : PyExc
deriving DecidableEq, Repr

/-- Observable events of one `_connect` run, in order: a `session.get` call,
an `on_data` invocation (the dispatch of a payload line), an `on_tweet`
invocation, an `on_keep_alive` invocation, an `on_request_error` invocation,
and a `time.sleep` call with its duration. -/
inductive Event where
  | connAttempt : Event
  | dispatch (d : LineData) : Event
  | tweet (d : LineData) : Event
  | keepAlive : Event
  | requestError (status : Nat) : Event
  | sleep (t : Nat) : Event
deriving DecidableEq, Repr

/-- How the `for line in resp.iter_lines(...)` loop of streaming.py lines
106-112 ends: the line iterator is exhausted, the `if not self.running: break`
fired, or an exception was raised. -/
inductive StreamOutcome where
  | finished : StreamOutcome
  | flagBreak : StreamOutcome
  | raised (e : PyExc) : StreamOutcome
deriving DecidableEq, Repr

/-- Outcome of one `self.session.get(...)` call (streaming.py lines 96-103):
the call raises, or returns a response with a status code and the lines its
body yields; `streamFault` records whether `iter_lines` raises after yielding
those lines. -/
inductive Attempt where
  | fault : Attempt
  | response (status : Nat) (lines : List Line) (streamFault : Bool) : Attempt
deriving DecidableEq, Repr

/-- Why the `while self.running and retries < self.max_retries` loop of
streaming.py lines 95-120 ended: the flag read false, the retry budget was
reached, the `break` after the doubled wait exceeded the cap fired, an
exception escaped to the `except` clause, or the finite attempt script of the
model ran out while the loop would have continued (model artifact). -/
inductive ExitReason where
  | notRunning : ExitReason
  | budget : ExitReason
  | waitCap : ExitReason
  | exception : ExitReason
  | scriptEnd : ExitReason
deriving DecidableEq, Repr

/-- State when the `while` loop of `_connect` has ended: the trace of events,
the exit reason, the exception that escaped to the `except` clause (if any),
and the final value of the local variable `retries`. -/
structure LoopResult where
  events : List Event
  exit : ExitReason
  exc : Option PyExc
  retries : Nat
deriving DecidableEq, Repr

/-- What `_connect` leaves behind after its `finally` block: the trace, the
exit reason and logged exception of the loop, the final `retries`, whether
`self.session.close()` ran, and the final value written to `self.running`. -/
structure ConnectResult where
  events : List Event
  exit : ExitReason
  logged : Option PyExc
  retries : Nat
  sessionClosed : Bool
  running : Bool
deriving DecidableEq, Repr

/-- `StreamApi.on_data` (streaming.py lines 130-143): parse the raw line
(`json.loads` raises on `malformed`); raise `PyTwitterError(data["errors"])`
if the key `errors` is present; when `return_json` is true, read
`data["data"]` (raising `KeyError` if absent); otherwise invoke `on_tweet`
(which may itself raise). Returns the callback events performed and the
exception raised, if any. -/
def on_data (return_json : Bool) (d : LineData) : List Event × Option PyExc :=
  match d with
  | .malformed => ([], some .jsonDecodeError)
  | .json hasErrors hasData tweetRaises =>
    if hasErrors then ([], some (.pyTwitterError "errors"))
    else if return_json && !hasData then ([], some .keyError)
    else ([.tweet (.json hasErrors hasData tweetRaises)],
          if tweetRaises then some .callbackError else none)

/-- `StreamApi.on_keep_alive` (streaming.py lines 152-157): invoked on a blank
line; the user-supplied override may raise. -/
def on_keep_alive (raises : Bool) : List Event × Option PyExc :=
  ([.keepAlive], if raises then some .callbackError else none)

/-- The body of the `for` loop of streaming.py lines 107-110 for one line:
a non-blank line is dispatched to `on_data`, a blank line to `on_keep_alive`.
Returns the events performed and the exception raised, if any. -/
def lineStep (return_json : Bool) : Line → List Event × Option PyExc
  | .blank r => on_keep_alive r
  | .payload d =>
    match on_data return_json d with
    | (evs, e) => (.dispatch d :: evs, e)

/-- The events performed while processing one line. -/
def lineEvents (return_json : Bool) (l : Line) : List Event :=
  (lineStep return_json l).1

/-- The exception raised while processing one line, if any. -/
def lineExc (return_json : Bool) (l : Line) : Option PyExc :=
  (lineStep return_json l).2

/-- A line is clean when processing it raises no exception. -/
def lineOk (return_json : Bool) (l : Line) : Bool :=
  (lineExc return_json l).isNone

/-- A payload whose processing raises the protocol-level error of
`on_data` before any callback: unparseable, or carrying an `errors` field. -/
def protoFatal : LineData → Bool
  | .malformed => true
  | .json hasErrors _ _ => hasErrors

/-- The `for line in resp.iter_lines(...)` loop of streaming.py lines
106-112: process each line in order; after each line, read `self.running`
(oracle index `k`) and break if it is false. If the iterator is exhausted and
`streamFault` is set, `iter_lines` raises a transport exception. Returns the
events in order, the next unread flag-oracle index, and how the loop ended. -/
def streamLines (return_json : Bool) (flag : Nat → Bool) :
    List Line → Bool → Nat → List Event × Nat × StreamOutcome
  | [], streamFault, k =>
    ([], k, if streamFault then .raised .requestException else .finished)
  | l :: rest, streamFault, k =>
    match lineStep return_json l with
    | (evs, some e) => (evs, k, .raised e)
    | (evs, none) =>
      if flag k then
        match streamLines return_json flag rest streamFault (k + 1) with
        | (evs2, k', out) => (evs ++ evs2, k', out)
      else (evs, k + 1, .flagBreak)

/-- Prepend already-performed events to the result of the rest of the loop. -/
def prependEvents (pre : List Event) (t : LoopResult) : LoopResult :=
  ⟨pre ++ t.events, t.exit, t.exc, t.retries⟩

/-- The `while self.running and retries < self.max_retries` loop of
streaming.py lines 95-120. Arguments after the oracles: the attempt script,
the next flag-oracle index `k`, the local `retries` `r`, and the local
`http_error_wait` `w`. On a 200 response the line loop runs (note: `retries`
and `http_error_wait` are not touched on this path); on any other status
`on_request_error` fires, `retries` is incremented, `time.sleep(w)` runs, the
wait doubles, and the loop breaks if the doubled wait exceeds the cap 320. An
exception anywhere ends the loop with that exception (to be caught by the
`except` clause of `_connect`). -/
def connectLoop (max_retries : Nat) (return_json : Bool) (flag : Nat → Bool) :
    List Attempt → Nat → Nat → Nat → LoopResult
  | attempts, k, r, w =>
    if flag k = false then ⟨[], .notRunning, none, r⟩
    else if max_retries ≤ r then ⟨[], .budget, none, r⟩
    else
      match attempts with
      | [] => ⟨[], .scriptEnd, none, r⟩
      | .fault :: _ => ⟨[.connAttempt], .exception, some .requestException, r⟩
      | .response status lines streamFault :: rest =>
        if status = 200 then
          match streamLines return_json flag lines streamFault (k + 1) with
          | (evs, _, .raised e) => ⟨.connAttempt :: evs, .exception, some e, r⟩
          | (evs, k', .finished) =>
            prependEvents (.connAttempt :: evs)
              (connectLoop max_retries return_json flag rest k' r w)
          | (evs, k', .flagBreak) =>
            prependEvents (.connAttempt :: evs)
              (connectLoop max_retries return_json flag rest k' r w)
        else
          let evs := [Event.connAttempt, Event.requestError status, Event.sleep w]
          if 320 < w * 2 then ⟨evs, .waitCap, none, r + 1⟩
          else
            prependEvents evs
              (connectLoop max_retries return_json flag rest (k + 1) (r + 1) (w * 2))

/-- `StreamApi._connect` (streaming.py lines 79-125): raise
`PyTwitterError("Need auth")` when no credential is configured; otherwise set
`running`, initialise `retries = 0` and `http_error_wait = 5`, run the loop
under `try`, catch and log any exception, and in `finally` close the session
and set `running` to false. -/
def connect (auth : Bool) (max_retries : Nat) (return_json : Bool)
    (flag : Nat → Bool) (attempts : List Attempt) : Except PyExc ConnectResult :=
  if auth = false then .error (.pyTwitterError "Need auth")
  else
    let t := connectLoop max_retries return_json flag attempts 0 0 5
    .ok ⟨t.events, t.exit, t.exc, t.retries, true, false⟩

/-- `StreamApi.disconnect` (streaming.py lines 127-128): write false to the
shared `running` flag. -/
def disconnect (_running : Bool) : Bool := false

/-- `StreamApi.sample` (streaming.py lines 162-208), with the parameter
marshalling elided (out of scope per the spec): raise
`PyTwitterError("Stream is running")` when `self.running` is true, before any
transport activity; otherwise call `_connect`. -/
def sample (running : Bool) (auth : Bool) (max_retries : Nat)
    (return_json : Bool) (flag : Nat → Bool) (attempts : List Attempt) :
    Except PyExc ConnectResult :=
  if running = true then .error (.pyTwitterError "Stream is running")
  else connect auth max_retries return_json flag attempts

/-- Number of callback events (payload dispatches and keep-alive
invocations) in a trace. -/
def cbCount (evs : List Event) : Nat :=
  evs.countP fun e =>
    match e with
    | .dispatch _ => true
    | .keepAlive => true
    | _ => false

/-- Number of `session.get` calls in a trace. -/
def attemptCount (evs : List Event) : Nat :=
  evs.countP fun e =>
    match e with
    | .connAttempt => true
    | _ => false

/-- Number of `on_keep_alive` invocations in a trace. -/
def keepAliveCount (evs : List Event) : Nat :=
  evs.countP fun e =>
    match e with
    | .keepAlive => true
    | _ => false

/-- Number of `on_data` invocations (message dispatches) in a trace. -/
def dispatchCount (evs : List Event) : Nat :=
  evs.countP fun e =>
    match e with
    | .dispatch _ => true
    | _ => false

/-- Number of blank lines in a line sequence. -/
def blankCount (lines : List Line) : Nat :=
  lines.countP fun l =>
    match l with
    | .blank _ => true
    | _ => false

/-- Number of non-blank (payload) lines in a line sequence. -/
def payloadCount (lines : List Line) : Nat :=
  lines.countP fun l =>
    match l with
    | .payload _ => true
    | _ => false

/-- Number of `session.get` calls made by a top-level call. -/
def sampleAttempts (x : Except PyExc ConnectResult) : Nat :=
  match x with
  | .error _ => 0
  | .ok r => attemptCount r.events

/-- The durations passed to `time.sleep`, in order, in a trace. -/
def sleepsOf (evs : List Event) : List Nat :=
  evs.filterMap fun e =>
    match e with
    | .sleep t => some t
    | _ => none

/-- The sleep durations the backoff produces over `n` further failures
starting from the state in which `r` failures have already happened
(`http_error_wait` is then `5 * 2 ^ r`). -/
def waitList : Nat → Nat → List Nat
  | 0, _ => []
  | n + 1, r => 5 * 2 ^ r :: waitList n (r + 1)

end PyTwitter

namespace PyTwitter

theorem cbCount_append (a b : List Event) :
    cbCount (a ++ b) = cbCount a + cbCount b := by
  simp [cbCount, List.countP_append]

theorem keepAliveCount_append (a b : List Event) :
    keepAliveCount (a ++ b) = keepAliveCount a + keepAliveCount b := by
  simp [keepAliveCount, List.countP_append]

theorem dispatchCount_append (a b : List Event) :
    dispatchCount (a ++ b) = dispatchCount a + dispatchCount b := by
  simp [dispatchCount, List.countP_append]

theorem attemptCount_append (a b : List Event) :
    attemptCount (a ++ b) = attemptCount a + attemptCount b := by
  simp [attemptCount, List.countP_append]

theorem cbCount_lineEvents (rj : Bool) (l : Line) :
    cbCount (lineEvents rj l) = 1 := by
  cases l with
  | blank r => simp [lineEvents, lineStep, on_keep_alive, cbCount]
  | payload d =>
    cases d with
    | malformed => simp [lineEvents, lineStep, on_data, cbCount]
    | json he hd tr =>
      by_cases h1 : he <;> by_cases h2 : rj && !hd <;>
        simp [lineEvents, lineStep, on_data, cbCount, h1, h2]

theorem keepAliveCount_lineEvents (rj : Bool) (l : Line) :
    keepAliveCount (lineEvents rj l) =
      (match l with | .blank _ => 1 | .payload _ => 0) := by
  cases l with
  | blank r => simp [lineEvents, lineStep, on_keep_alive, keepAliveCount]
  | payload d =>
    cases d with
    | malformed => simp [lineEvents, lineStep, on_data, keepAliveCount]
    | json he hd tr =>
      by_cases h1 : he <;> by_cases h2 : rj && !hd <;>
        simp [lineEvents, lineStep, on_data, keepAliveCount, h1, h2]

theorem dispatchCount_lineEvents (rj : Bool) (l : Line) :
    dispatchCount (lineEvents rj l) =
      (match l with | .blank _ => 0 | .payload _ => 1) := by
  cases l with
  | blank r => simp [lineEvents, lineStep, on_keep_alive, dispatchCount]
  | payload d =>
    cases d with
    | malformed => simp [lineEvents, lineStep, on_data, dispatchCount]
    | json he hd tr =>
      by_cases h1 : he <;> by_cases h2 : rj && !hd <;>
        simp [lineEvents, lineStep, on_data, dispatchCount, h1, h2]

theorem keepAliveCount_bind (rj : Bool) :
    ∀ lines : List Line,
      keepAliveCount (lines.flatMap (lineEvents rj)) = blankCount lines := by
  intro lines
  induction lines with
  | nil => simp [keepAliveCount, blankCount]
  | cons l rest ih =>
    rw [List.flatMap_cons, keepAliveCount_append, ih, keepAliveCount_lineEvents]
    cases l with
    | blank r => simp [blankCount, List.countP_cons]; omega
    | payload d => simp [blankCount, List.countP_cons]

theorem dispatchCount_bind (rj : Bool) :
    ∀ lines : List Line,
      dispatchCount (lines.flatMap (lineEvents rj)) = payloadCount lines := by
  intro lines
  induction lines with
  | nil => simp [dispatchCount, payloadCount]
  | cons l rest ih =>
    rw [List.flatMap_cons, dispatchCount_append, ih, dispatchCount_lineEvents]
    cases l with
    | blank r => simp [payloadCount, List.countP_cons]
    | payload d => simp [payloadCount, List.countP_cons]; omega

theorem streamLines_clean (rj : Bool) :
    ∀ (lines : List Line) (k : Nat),
      (∀ l ∈ lines, lineOk rj l = true) →
      streamLines rj (fun _ => true) lines false k =
        (lines.flatMap (lineEvents rj), k + lines.length, .finished) := by
  intro lines
  induction lines with
  | nil => intro k _; simp [streamLines]
  | cons l rest ih =>
    intro k h
    have hl : lineOk rj l = true := h l (by simp)
    have hrest : ∀ x ∈ rest, lineOk rj x = true := fun x hx => h x (by simp [hx])
    have hnone : (lineStep rj l).2 = none := by
      simpa [lineOk, lineExc, Option.isNone_iff_eq_none] using hl
    rw [streamLines]
    cases hstep : lineStep rj l with
    | mk levs oe =>
      rw [hstep] at hnone
      simp only at hnone
      subst hnone
      simp only [if_pos rfl]
      rw [ih (k + 1) hrest]
      simp [lineEvents, hstep, List.flatMap_cons]
      omega

theorem streamLines_fatal (rj : Bool) (e : PyExc) :
    ∀ (pre : List Line) (bad : Line) (rest : List Line) (sf : Bool) (k : Nat),
      (∀ l ∈ pre, lineOk rj l = true) → lineExc rj bad = some e →
      streamLines rj (fun _ => true) (pre ++ bad :: rest) sf k =
        (pre.flatMap (lineEvents rj) ++ lineEvents rj bad, k + pre.length,
          .raised e) := by
  intro pre
  induction pre with
  | nil =>
    intro bad rest sf k _ hbad
    rw [List.nil_append, streamLines]
    cases hstep : lineStep rj bad with
    | mk levs oe =>
      rw [lineExc, hstep] at hbad
      simp only at hbad
      subst hbad
      simp [lineEvents, hstep]
  | cons l pres ih =>
    intro bad rest sf k h hbad
    have hl : lineOk rj l = true := h l (by simp)
    have hpres : ∀ x ∈ pres, lineOk rj x = true := fun x hx => h x (by simp [hx])
    have hnone : (lineStep rj l).2 = none := by
      simpa [lineOk, lineExc, Option.isNone_iff_eq_none] using hl
    rw [List.cons_append, streamLines]
    cases hstep : lineStep rj l with
    | mk levs oe =>
      rw [hstep] at hnone
      simp only at hnone
      subst hnone
      simp only [if_pos rfl]
      rw [ih bad rest sf (k + 1) hpres hbad]
      simp [lineEvents, hstep, List.flatMap_cons]
      omega

theorem connectLoop_notRunning (mr : Nat) (rj : Bool) (flag : Nat → Bool)
    (attempts : List Attempt) (k r w : Nat) (h : flag k = false) :
    connectLoop mr rj flag attempts k r w = ⟨[], .notRunning, none, r⟩ := by
  rw [connectLoop.eq_def]
  simp [h]

theorem protoFatal_step (rj : Bool) (d : LineData) (h : protoFatal d = true) :
    ∃ e, lineStep rj (.payload d) = ([Event.dispatch d], some e) := by
  cases d with
  | malformed => exact ⟨.jsonDecodeError, rfl⟩
  | json he hd tr =>
    rw [protoFatal] at h
    exact ⟨.pyTwitterError "errors", by simp [lineStep, on_data, h]⟩

theorem tweet_not_in_lineEvents (rj : Bool) (l : Line) (hd tr : Bool) :
    Event.tweet (.json true hd tr) ∉ lineEvents rj l := by
  cases l with
  | blank r => simp [lineEvents, lineStep, on_keep_alive]
  | payload d =>
    cases d with
    | malformed => simp [lineEvents, lineStep, on_data]
    | json he hd' tr' =>
      by_cases h1 : he <;> by_cases h2 : rj && !hd' <;>
        simp [lineEvents, lineStep, on_data, h1, h2]

theorem tweet_not_in_flatMap (rj : Bool) (lines : List Line) (hd tr : Bool) :
    Event.tweet (.json true hd tr) ∉ lines.flatMap (lineEvents rj) := by
  intro hmem
  rw [List.mem_flatMap] at hmem
  obtain ⟨l, _, hl⟩ := hmem
  exact tweet_not_in_lineEvents rj l hd tr hl

theorem connectLoop_allFail (mr : Nat) (rj : Bool) (hmr6 : mr ≤ 6) :
    ∀ (statuses : List Nat) (k r : Nat),
      (∀ s ∈ statuses, s ≠ 200) → r ≤ mr → mr - r ≤ statuses.length →
      ∃ evs,
        connectLoop mr rj (fun _ => true)
            (statuses.map fun s => .response s [] false) k r (5 * 2 ^ r) =
          ⟨evs, .budget, none, mr⟩ ∧ attemptCount evs = mr - r := by
  intro statuses
  induction statuses with
  | nil =>
    intro k r _ hr hlen
    have hrm : r = mr := by simp at hlen; omega
    subst hrm
    refine ⟨[], ?_, by simp [attemptCount]⟩
    rw [connectLoop.eq_def]
    simp
  | cons s sts ih =>
    intro k r hf hr hlen
    by_cases hcase : mr ≤ r
    · have hrm : r = mr := le_antisymm hr hcase
      subst hrm
      refine ⟨[], ?_, by simp [attemptCount]⟩
      rw [connectLoop.eq_def]
      simp
    · have hs : s ≠ 200 := hf s (by simp)
      have hpow : (2 : Nat) ^ (r + 1) ≤ 2 ^ 6 :=
        Nat.pow_le_pow_right (by norm_num) (by omega)
      have hwait : ¬ (320 < 5 * 2 ^ r * 2) := by
        have h2 : 5 * 2 ^ r * 2 = 5 * 2 ^ (r + 1) := by ring
        rw [h2]
        have : (2 : Nat) ^ 6 = 64 := by norm_num
        omega
      obtain ⟨evs, heq, hcnt⟩ :=
        ih (k + 1) (r + 1) (fun x hx => hf x (by simp [hx])) (by omega)
          (by simp at hlen ⊢; omega)
      have heq' : connectLoop mr rj (fun _ => true)
          (sts.map fun s => .response s [] false) (k + 1) (r + 1)
          (5 * 2 ^ r * 2) = ⟨evs, .budget, none, mr⟩ := by
        rw [show 5 * 2 ^ r * 2 = 5 * 2 ^ (r + 1) from by ring]
        exact heq
      refine ⟨[Event.connAttempt, Event.requestError s, Event.sleep (5 * 2 ^ r)]
        ++ evs, ?_, ?_⟩
      · rw [List.map_cons, connectLoop.eq_def]
        simp [hcase, hs, hwait, prependEvents, heq']
      · rw [attemptCount_append, hcnt]
        simp [attemptCount]
        omega

theorem streamLines_cancel (rj : Bool) (m : Nat) (sf : Bool) :
    ∀ (lines : List Line) (k : Nat) (evs : List Event) (k' : Nat)
      (out : StreamOutcome),
      streamLines rj (fun j => decide (j < m)) lines sf k = (evs, k', out) →
      (out = .finished → cbCount evs + k = k' ∧ (k' ≤ m ∨ cbCount evs = 0)) ∧
      (out = .flagBreak →
        m < k' ∧ (cbCount evs ≤ 1 ∨ cbCount evs + k ≤ m + 1)) ∧
      (∀ e, out = .raised e →
        cbCount evs ≤ 1 ∨ cbCount evs + k ≤ m + 1) := by
  intro lines
  induction lines with
  | nil =>
    intro k evs k' out h
    rw [streamLines] at h
    cases sf with
    | false =>
      simp only [if_false, Prod.mk.injEq] at h
      obtain ⟨he, hk, ho⟩ := h
      subst he; subst hk; subst ho
      refine ⟨fun _ => ⟨by simp [cbCount], Or.inr (by simp [cbCount])⟩,
        fun hc => by simp at hc, fun e hc => by simp at hc⟩
    | true =>
      simp only [if_true, Prod.mk.injEq] at h
      obtain ⟨he, hk, ho⟩ := h
      subst he; subst hk
      refine ⟨fun hc => by rw [← ho] at hc; simp at hc,
        fun hc => by rw [← ho] at hc; simp at hc,
        fun e _ => Or.inl (by simp [cbCount])⟩
  | cons l rest ih =>
    intro k evs k' out h
    rw [streamLines] at h
    cases hstep : lineStep rj l with
    | mk levs oe =>
      rw [hstep] at h
      have hlevs : lineEvents rj l = levs := by rw [lineEvents, hstep]
      cases oe with
      | some e0 =>
        simp only [Prod.mk.injEq] at h
        obtain ⟨he, hk, ho⟩ := h
        subst he; subst hk
        refine ⟨fun hc => by rw [← ho] at hc; simp at hc,
          fun hc => by rw [← ho] at hc; simp at hc,
          fun e _ => Or.inl ?_⟩
        rw [← hlevs, cbCount_lineEvents]
      | none =>
        simp only at h
        by_cases hk : k < m
        · rw [if_pos (by simpa using hk)] at h
          cases hrec : streamLines rj (fun j => decide (j < m)) rest sf (k + 1)
            with
          | mk evs2 rest2 =>
            cases rest2 with
            | mk k2 out2 =>
              rw [hrec] at h
              simp only [Prod.mk.injEq] at h
              obtain ⟨he, hk2, ho⟩ := h
              subst he; subst hk2; subst ho
              obtain ⟨hfin, hbrk, hrsd⟩ := ih (k + 1) evs2 k2 out2 hrec
              have hcb : cbCount (levs ++ evs2) = 1 + cbCount evs2 := by
                rw [cbCount_append, ← hlevs, cbCount_lineEvents]
              refine ⟨fun hc => ?_, fun hc => ?_, fun e hc => ?_⟩
              · obtain ⟨h1, h2⟩ := hfin hc
                refine ⟨by omega, ?_⟩
                rcases h2 with h2 | h2
                · exact Or.inl h2
                · left; omega
              · obtain ⟨h1, h2⟩ := hbrk hc
                refine ⟨h1, Or.inr ?_⟩
                rcases h2 with h2 | h2 <;> omega
              · have h2 := hrsd e hc
                refine Or.inr ?_
                rcases h2 with h2 | h2 <;> omega
        · have hk2 : ¬ (decide (k < m) = true) := by simpa using hk
          rw [if_neg hk2] at h
          simp only [Prod.mk.injEq] at h
          obtain ⟨he, hk2, ho⟩ := h
          subst he; subst hk2
          refine ⟨fun hc => by rw [← ho] at hc; simp at hc,
            fun _ => ⟨by omega, Or.inl ?_⟩,
            fun e hc => by rw [← ho] at hc; simp at hc⟩
          rw [← hlevs, cbCount_lineEvents]

theorem cbCount_connAttempt_cons (evs : List Event) :
    cbCount (Event.connAttempt :: evs) = cbCount evs := by
  simp [cbCount]

theorem connectLoop_cancel (mr : Nat) (rj : Bool) (m : Nat) :
    ∀ (attempts : List Attempt) (k r w : Nat),
      cbCount (connectLoop mr rj (fun j => decide (j < m)) attempts k r w).events
        ≤ (m + 1) - k := by
  intro attempts
  induction attempts with
  | nil =>
    intro k r w
    rw [connectLoop.eq_def]
    simp only
    split_ifs <;> simp [cbCount]
  | cons a rest ih =>
    intro k r w
    rw [connectLoop.eq_def]
    simp only
    by_cases hflag : k < m
    · have hf : ¬ (decide (k < m) = false) := by simp [hflag]
      rw [if_neg hf]
      by_cases hbud : mr ≤ r
      · rw [if_pos hbud]; simp [cbCount]
      · rw [if_neg hbud]
        cases a with
        | fault => simp [cbCount]
        | response status lines sf =>
          simp only
          by_cases hst : status = 200
          · rw [if_pos hst]
            cases hrec : streamLines rj (fun j => decide (j < m)) lines sf
              (k + 1) with
            | mk evs rest2 =>
              cases rest2 with
              | mk k2 out =>
                obtain ⟨hfin, hbrk, hrsd⟩ :=
                  streamLines_cancel rj m sf lines (k + 1) evs k2 out hrec
                cases out with
                | raised e =>
                  simp only
                  rw [cbCount_connAttempt_cons]
                  rcases hrsd e rfl with h2 | h2 <;> omega
                | finished =>
                  simp only [prependEvents]
                  obtain ⟨h1, h2⟩ := hfin rfl
                  have ht := ih k2 r w
                  rw [cbCount_append, cbCount_connAttempt_cons]
                  rcases h2 with h2 | h2 <;> omega
                | flagBreak =>
                  simp only [prependEvents]
                  obtain ⟨h1, h2⟩ := hbrk rfl
                  have ht : connectLoop mr rj (fun j => decide (j < m)) rest
                      k2 r w = ⟨[], .notRunning, none, r⟩ :=
                    connectLoop_notRunning mr rj _ rest k2 r w
                      (by simp; omega)
                  rw [ht, cbCount_append, cbCount_connAttempt_cons]
                  have hz : cbCount (LoopResult.events
                      ⟨[], .notRunning, none, r⟩) = 0 := rfl
                  rw [hz]
                  rcases h2 with h2 | h2 <;> omega
          · rw [if_neg hst]
            by_cases hw : 320 < w * 2
            · rw [if_pos hw]; simp [cbCount]
            · rw [if_neg hw]
              have ht := ih (k + 1) (r + 1) (w * 2)
              simp only [prependEvents]
              rw [cbCount_append]
              have hz : cbCount [Event.connAttempt, Event.requestError status,
                Event.sleep w] = 0 := by simp [cbCount]
              rw [hz]
              omega
    · have hf : decide (k < m) = false := by simp [hflag]
      rw [if_pos hf]
      simp [cbCount]

theorem sleepsOf_append (a b : List Event) :
    sleepsOf (a ++ b) = sleepsOf a ++ sleepsOf b := by
  simp [sleepsOf, List.filterMap_append]

theorem connectLoop_failCap (mr : Nat) (rj : Bool) (hmr : 7 ≤ mr) :
    ∀ (statuses : List Nat) (k r : Nat),
      (∀ s ∈ statuses, s ≠ 200) → r ≤ 6 → 7 - r ≤ statuses.length →
      ∃ evs,
        connectLoop mr rj (fun _ => true)
            (statuses.map fun s => .response s [] false) k r (5 * 2 ^ r) =
          ⟨evs, .waitCap, none, 7⟩ ∧ sleepsOf evs = waitList (7 - r) r ∧
          attemptCount evs = 7 - r := by
  intro statuses
  induction statuses with
  | nil =>
    intro k r _ hr6 hlen
    exfalso
    simp at hlen
    omega
  | cons s sts ih =>
    intro k r hf hr6 hlen
    have hs : s ≠ 200 := hf s (by simp)
    by_cases hr6' : r = 6
    · subst hr6'
      refine ⟨[Event.connAttempt, Event.requestError s,
        Event.sleep (5 * 2 ^ 6)], ?_, ?_, ?_⟩
      · rw [List.map_cons, connectLoop.eq_def]
        simp only
        rw [if_neg (by simp : ¬ (true = false)),
          if_neg (by omega : ¬ (mr ≤ 6))]
        rw [if_neg hs, if_pos (by norm_num : 320 < 5 * 2 ^ 6 * 2)]
      · simp [sleepsOf, waitList, show (7 : Nat) - 6 = 1 from rfl]
      · simp [attemptCount]
    · have hwait : ¬ (320 < 5 * 2 ^ r * 2) := by
        have h2 : 5 * 2 ^ r * 2 = 5 * 2 ^ (r + 1) := by ring
        have hpow : (2 : Nat) ^ (r + 1) ≤ 2 ^ 6 :=
          Nat.pow_le_pow_right (by norm_num) (by omega)
        have h64 : (2 : Nat) ^ 6 = 64 := by norm_num
        omega
      obtain ⟨evs, heq, hsl, hcnt⟩ :=
        ih (k + 1) (r + 1) (fun x hx => hf x (by simp [hx])) (by omega)
          (by simp at hlen ⊢; omega)
      have heq' : connectLoop mr rj (fun _ => true)
          (sts.map fun s => .response s [] false) (k + 1) (r + 1)
          (5 * 2 ^ r * 2) = ⟨evs, .waitCap, none, 7⟩ := by
        rw [show 5 * 2 ^ r * 2 = 5 * 2 ^ (r + 1) from by ring]
        exact heq
      refine ⟨[Event.connAttempt, Event.requestError s,
        Event.sleep (5 * 2 ^ r)] ++ evs, ?_, ?_, ?_⟩
      · rw [List.map_cons, connectLoop.eq_def]
        simp [show ¬ (mr ≤ r) from by omega, hs, hwait, prependEvents, heq']
      · rw [sleepsOf_append, hsl,
          show sleepsOf [Event.connAttempt, Event.requestError s,
            Event.sleep (5 * 2 ^ r)] = [5 * 2 ^ r] from by simp [sleepsOf],
          show 7 - r = (7 - (r + 1)) + 1 from by omega, waitList]
        simp
      · rw [attemptCount_append, hcnt]
        simp [attemptCount]
        omega

/-- Claim C1, counterexample. With `max_retries = 2`, the attempt script
fail(500), success(200, empty body), fail(500) ends with the loop exiting on
an exhausted budget and `retries = 2`: the successful (200) connection in
between did not reset the retry counter to 0 (under the claim, the final
state would have `retries = 1` and the budget would not be exhausted, since
the two failures are not consecutive). The second sleep is 10, not 5, showing
the backoff delay is not reset by the success either. -/
theorem C1_counterexample :
    connect true 2 false (fun _ => true)
        [.response 500 [] false, .response 200 [] false,
          .response 500 [] false] =
      .ok ⟨[.connAttempt, .requestError 500, .sleep 5, .connAttempt,
        .connAttempt, .requestError 500, .sleep 10], .budget, none, 2, true,
        false⟩ := by
  rfl

/-- Claim C1 (corrected): the code never resets the retry counter on a
success status. A 200 response whose lines are all processed without
exception leaves the loop state unchanged: the continuation after the
successful connection runs with the same `retries` value `r` (and the same
backoff wait `w`) it had before, not with 0. Consequently all failures of the
session, consecutive or not, count toward the max-retries budget. -/
theorem C1_success_preserves_retries (mr : Nat) (rj : Bool) (k r w : Nat)
    (lines : List Line) (rest : List Attempt) (hr : r < mr)
    (hclean : ∀ l ∈ lines, lineOk rj l = true) :
    connectLoop mr rj (fun _ => true) (.response 200 lines false :: rest) k r
        w =
      prependEvents (Event.connAttempt :: lines.flatMap (lineEvents rj))
        (connectLoop mr rj (fun _ => true) rest (k + 1 + lines.length) r w)
    := by
  rw [connectLoop.eq_def]
  simp only
  rw [if_neg (by simp : ¬ (true = false)), if_neg (by omega : ¬ (mr ≤ r))]
  rw [if_pos trivial, streamLines_clean rj lines (k + 1) hclean]

/-- Witness for C1: the corrected statement evaluated at a concrete input,
with both hypotheses discharged. -/
theorem C1_witness :
    ((1 : Nat) < 2 ∧ (∀ l ∈ [Line.blank false], lineOk false l = true)) ∧
    connectLoop 2 false (fun _ => true)
        (.response 200 [Line.blank false] false :: []) 0 1 5 =
      prependEvents (Event.connAttempt ::
          [Line.blank false].flatMap (lineEvents false))
        (connectLoop 2 false (fun _ => true) []
          (0 + 1 + [Line.blank false].length) 1 5) :=
  ⟨⟨by decide, by decide⟩,
    C1_success_preserves_retries 2 false 0 1 5 [Line.blank false] []
      (by decide) (by decide)⟩

/-- Claim C2, counterexample. With `max_retries = 10` and eight consecutive
failing attempts available, the controller opens only seven connections: the
sleeps are 5, 10, 20, 40, 80, 160, 320, and after the seventh failure the
doubled delay (640) exceeds the cap (320), so the loop `break`s with the
budget (10) not exhausted. Under the claim the delay would remain clamped at
320 and an eighth attempt would be made. -/
theorem C2_counterexample :
    connect true 10 false (fun _ => true)
        (List.replicate 8 (.response 500 [] false)) =
      .ok ⟨[.connAttempt, .requestError 500, .sleep 5,
            .connAttempt, .requestError 500, .sleep 10,
            .connAttempt, .requestError 500, .sleep 20,
            .connAttempt, .requestError 500, .sleep 40,
            .connAttempt, .requestError 500, .sleep 80,
            .connAttempt, .requestError 500, .sleep 160,
            .connAttempt, .requestError 500, .sleep 320],
        .waitCap, none, 7, true, false⟩ := by
  rfl

/-- Claim C2 (corrected): the sleep after the Nth failed attempt of a session
equals `5 * 2 ^ (N - 1)` for N = 1..7 (these values never exceed the cap
320), and after the seventh failure the controller breaks out of the retry
loop because the doubled delay would exceed the cap: with any budget of at
least 7, exactly seven connections are attempted and the delay is never
clamped to stay at the cap. -/
theorem C2_doubling_then_break (mr : Nat) (rj : Bool) (statuses : List Nat)
    (hmr : 7 ≤ mr) (hlen : 7 ≤ statuses.length)
    (hf : ∀ s ∈ statuses, s ≠ 200) :
    ∃ evs, connect true mr rj (fun _ => true)
        (statuses.map fun s => .response s [] false) =
        .ok ⟨evs, .waitCap, none, 7, true, false⟩ ∧
      sleepsOf evs = [5, 10, 20, 40, 80, 160, 320] ∧ attemptCount evs = 7
    := by
  obtain ⟨evs, heq, hsl, hcnt⟩ :=
    connectLoop_failCap mr rj hmr statuses 0 0 hf (by omega) (by omega)
  have heq' : connectLoop mr rj (fun _ => true)
      (statuses.map fun s => .response s [] false) 0 0 5 =
      ⟨evs, .waitCap, none, 7⟩ := by
    rw [show (5 : Nat) = 5 * 2 ^ 0 from by norm_num]
    exact heq
  refine ⟨evs, ?_, ?_, by simpa using hcnt⟩
  · simp only [connect]
    rw [if_neg (by simp : ¬ (true = false)), heq']
  · rw [hsl]
    decide

/-- Witness for C2: the corrected statement evaluated at a concrete input,
with all hypotheses discharged. -/
theorem C2_witness :
    ((7 : Nat) ≤ 7 ∧
      (7 : Nat) ≤ ([500, 500, 500, 500, 500, 500, 500] : List Nat).length ∧
      (∀ s ∈ ([500, 500, 500, 500, 500, 500, 500] : List Nat), s ≠ 200)) ∧
    ∃ evs, connect true 7 false (fun _ => true)
        (([500, 500, 500, 500, 500, 500, 500] : List Nat).map
          fun s => .response s [] false) =
        .ok ⟨evs, .waitCap, none, 7, true, false⟩ ∧
      sleepsOf evs = [5, 10, 20, 40, 80, 160, 320] ∧ attemptCount evs = 7 :=
  ⟨⟨by decide, by decide, by decide⟩,
    C2_doubling_then_break 7 false [500, 500, 500, 500, 500, 500, 500]
      (by decide) (by decide) (by decide)⟩

/-- Claim C3, counterexample. With `max_retries = 3` and five failing
attempts available, the controller terminates after exactly three attempts
(the budget part of the claim holds), but the top-level call returns `.ok`
with no logged exception and no error value of any kind: the exhaustion is
not reported to the caller as an error, contradicting the claim that a
`RetriesExhausted` error is thrown or returned rather than returning
silently. -/
theorem C3_counterexample :
    connect true 3 false (fun _ => true)
        (List.replicate 5 (.response 500 [] false)) =
      .ok ⟨[.connAttempt, .requestError 500, .sleep 5,
            .connAttempt, .requestError 500, .sleep 10,
            .connAttempt, .requestError 500, .sleep 20],
        .budget, none, 3, true, false⟩ := by
  rfl

/-- Claim C3 (corrected): after `max_retries` consecutive failed connection
attempts (budgets up to 6; larger budgets are cut short even earlier by the
wait-cap break, see C2) the controller terminates without opening another
transport connection — exactly `max_retries` `session.get` calls are made —
but the exhaustion is not reported: the top-level call returns normally, with
no exception raised or logged. -/
theorem C3_budget_exhaustion_silent (mr : Nat) (rj : Bool)
    (statuses : List Nat) (hmr : mr ≤ 6) (hlen : mr ≤ statuses.length)
    (hf : ∀ s ∈ statuses, s ≠ 200) :
    ∃ evs, connect true mr rj (fun _ => true)
        (statuses.map fun s => .response s [] false) =
        .ok ⟨evs, .budget, none, mr, true, false⟩ ∧ attemptCount evs = mr
    := by
  obtain ⟨evs, heq, hcnt⟩ :=
    connectLoop_allFail mr rj hmr statuses 0 0 hf (by omega) (by omega)
  have heq' : connectLoop mr rj (fun _ => true)
      (statuses.map fun s => .response s [] false) 0 0 5 =
      ⟨evs, .budget, none, mr⟩ := by
    rw [show (5 : Nat) = 5 * 2 ^ 0 from by norm_num]
    exact heq
  refine ⟨evs, ?_, by simpa using hcnt⟩
  simp only [connect]
  rw [if_neg (by simp : ¬ (true = false)), heq']

/-- Witness for C3: the corrected statement evaluated at a concrete input,
with all hypotheses discharged. -/
theorem C3_witness :
    ((3 : Nat) ≤ 6 ∧ (3 : Nat) ≤ ([500, 500, 500] : List Nat).length ∧
      (∀ s ∈ ([500, 500, 500] : List Nat), s ≠ 200)) ∧
    ∃ evs, connect true 3 false (fun _ => true)
        (([500, 500, 500] : List Nat).map fun s => .response s [] false) =
        .ok ⟨evs, .budget, none, 3, true, false⟩ ∧ attemptCount evs = 3 :=
  ⟨⟨by decide, by decide, by decide⟩,
    C3_budget_exhaustion_silent 3 false [500, 500, 500] (by decide)
      (by decide) (by decide)⟩

/-- Claim C4, counterexample. A 200 connection delivering one unparseable
payload line: the session terminates at once with no retry, but the resulting
`ProtocolError` is not surfaced to the caller of the top-level call — the
exception is caught by the `except` clause, logged, and `_connect` returns
normally (`.ok`, with the error only in the log), contradicting the claim
that the error is propagated to the caller. -/
theorem C4_counterexample :
    connect true 3 false (fun _ => true)
        [.response 200 [.payload .malformed] false] =
      .ok ⟨[.connAttempt, .dispatch .malformed], .exception,
        some .jsonDecodeError, 0, true, false⟩ := by
  rfl

/-- Claim C4 (corrected): a payload line carrying a top-level error field, or
an unparseable payload line, is fatal for the current session: the session
terminates immediately (the trace ends at the dispatch of the fatal line, no
further connection attempt or sleep occurs, later scripted attempts are never
opened, and the retry counter is untouched) — but the error is caught at the
loop boundary and logged, and the top-level call returns normally instead of
propagating it to the caller. -/
theorem C4_fatal_terminates_logged (mr : Nat) (rj : Bool) (pre : List Line)
    (d : LineData) (rest : List Line) (more : List Attempt) (sf : Bool)
    (hmr : 0 < mr) (hclean : ∀ l ∈ pre, lineOk rj l = true)
    (hd : protoFatal d = true) :
    ∃ e : PyExc,
      connect true mr rj (fun _ => true)
          (.response 200 (pre ++ .payload d :: rest) sf :: more) =
        .ok ⟨Event.connAttempt :: (pre.flatMap (lineEvents rj) ++
          [Event.dispatch d]), .exception, some e, 0, true, false⟩ := by
  obtain ⟨e, hstep⟩ := protoFatal_step rj d hd
  have hexc : lineExc rj (.payload d) = some e := by rw [lineExc, hstep]
  have hevs : lineEvents rj (.payload d) = [Event.dispatch d] := by
    rw [lineEvents, hstep]
  refine ⟨e, ?_⟩
  have hloop : connectLoop mr rj (fun _ => true)
      (.response 200 (pre ++ .payload d :: rest) sf :: more) 0 0 5 =
      ⟨Event.connAttempt :: (pre.flatMap (lineEvents rj) ++
        [Event.dispatch d]), .exception, some e, 0⟩ := by
    rw [connectLoop.eq_def]
    simp only
    rw [if_neg (by simp : ¬ (true = false)), if_neg (by omega : ¬ (mr ≤ 0))]
    rw [if_pos trivial,
      streamLines_fatal rj e pre (.payload d) rest sf (0 + 1) hclean hexc,
      hevs]
  simp only [connect]
  rw [if_neg (by simp : ¬ (true = false)), hloop]

/-- Witness for C4: the corrected statement evaluated at a concrete input,
with all hypotheses discharged. -/
theorem C4_witness :
    ((0 : Nat) < 3 ∧ (∀ l ∈ [Line.blank false], lineOk false l = true) ∧
      protoFatal .malformed = true) ∧
    ∃ e : PyExc,
      connect true 3 false (fun _ => true)
          (.response 200 ([Line.blank false] ++ .payload .malformed :: [])
            false :: [.fault]) =
        .ok ⟨Event.connAttempt :: ([Line.blank false].flatMap
          (lineEvents false) ++ [Event.dispatch .malformed]), .exception,
          some e, 0, true, false⟩ :=
  ⟨⟨by decide, by decide, by decide⟩,
    C4_fatal_terminates_logged 3 false [Line.blank false] .malformed []
      [.fault] false (by decide) (by decide) (by decide)⟩

/-- Claim C5 (confirmed): a payload line whose JSON object contains an
`errors` field never reaches `on_tweet` — no `tweet` event for that object
appears anywhere in the trace; `on_data` raises `PyTwitterError` (the
fatal-error path), the session terminates with exit reason `exception`
(later scripted attempts are never opened), and the retry counter is still 0:
the event did not increment it. -/
theorem C5_errors_field_fatal (mr : Nat) (rj : Bool) (pre : List Line)
    (hd tr : Bool) (rest : List Line) (more : List Attempt) (sf : Bool)
    (hmr : 0 < mr) (hclean : ∀ l ∈ pre, lineOk rj l = true) :
    connect true mr rj (fun _ => true)
        (.response 200 (pre ++ .payload (.json true hd tr) :: rest) sf ::
          more) =
      .ok ⟨Event.connAttempt :: (pre.flatMap (lineEvents rj) ++
        [Event.dispatch (.json true hd tr)]), .exception,
        some (.pyTwitterError "errors"), 0, true, false⟩ ∧
    Event.tweet (.json true hd tr) ∉
      Event.connAttempt :: (pre.flatMap (lineEvents rj) ++
        [Event.dispatch (.json true hd tr)]) := by
  constructor
  · have hexc : lineExc rj (.payload (.json true hd tr)) =
        some (.pyTwitterError "errors") := by
      simp [lineExc, lineStep, on_data]
    have hevs : lineEvents rj (.payload (.json true hd tr)) =
        [Event.dispatch (.json true hd tr)] := by
      simp [lineEvents, lineStep, on_data]
    have hloop : connectLoop mr rj (fun _ => true)
        (.response 200 (pre ++ .payload (.json true hd tr) :: rest) sf ::
          more) 0 0 5 =
        ⟨Event.connAttempt :: (pre.flatMap (lineEvents rj) ++
          [Event.dispatch (.json true hd tr)]), .exception,
          some (.pyTwitterError "errors"), 0⟩ := by
      rw [connectLoop.eq_def]
      simp only
      rw [if_neg (by simp : ¬ (true = false)),
        if_neg (by omega : ¬ (mr ≤ 0))]
      rw [if_pos trivial,
        streamLines_fatal rj (.pyTwitterError "errors") pre
          (.payload (.json true hd tr)) rest sf (0 + 1) hclean hexc, hevs]
    simp only [connect]
    rw [if_neg (by simp : ¬ (true = false)), hloop]
  · have hno := tweet_not_in_flatMap rj pre hd tr
    simp [List.mem_cons, List.mem_append, hno]

/-- Witness for C5: the theorem evaluated at a concrete input, with both
hypotheses discharged. -/
theorem C5_witness :
    ((0 : Nat) < 3 ∧ (∀ l ∈ [Line.blank false], lineOk false l = true)) ∧
    (connect true 3 false (fun _ => true)
        (.response 200
          ([Line.blank false] ++ .payload (.json true false false) :: [])
          false :: []) =
      .ok ⟨Event.connAttempt :: ([Line.blank false].flatMap
        (lineEvents false) ++ [Event.dispatch (.json true false false)]),
        .exception, some (.pyTwitterError "errors"), 0, true, false⟩ ∧
    Event.tweet (.json true false false) ∉
      Event.connAttempt :: ([Line.blank false].flatMap (lineEvents false) ++
        [Event.dispatch (.json true false false)])) :=
  ⟨⟨by decide, by decide⟩,
    C5_errors_field_fatal 3 false [Line.blank false] false false [] [] false
      (by decide) (by decide)⟩

/-- Claim C6, counterexample. The line sequence payload-with-errors-field
followed by a blank line, with the running flag always true: the fatal first
line aborts the read loop, so zero keep-alive callbacks are invoked although
the sequence contains one blank line — the counts do not match for every
sequence of lines. -/
theorem C6_counterexample :
    keepAliveCount (streamLines false (fun _ => true)
        [.payload (.json true false false), .blank false] false 0).1 ≠
      blankCount [.payload (.json true false false), .blank false] := by
  decide

/-- Claim C6 (corrected): for every finite sequence of lines delivered over
one connection while the running flag stays true, provided no line is fatal
(every line parses, carries no `errors` field, and its callback does not
raise), the read loop dispatches exactly one event per line in the original
wire order — the trace is the concatenation of the per-line events in order —
and the number of keep-alive invocations equals the number of blank lines
while the number of message dispatches equals the number of non-blank lines.
A fatal line aborts the loop, so without the cleanliness hypothesis the
counts can differ (see the counterexample). -/
theorem C6_counts_and_order (rj : Bool) (k : Nat) (lines : List Line)
    (h : ∀ l ∈ lines, lineOk rj l = true) :
    streamLines rj (fun _ => true) lines false k =
      (lines.flatMap (lineEvents rj), k + lines.length, .finished) ∧
    keepAliveCount (lines.flatMap (lineEvents rj)) = blankCount lines ∧
    dispatchCount (lines.flatMap (lineEvents rj)) = payloadCount lines :=
  ⟨streamLines_clean rj lines k h, keepAliveCount_bind rj lines,
    dispatchCount_bind rj lines⟩

/-- Witness for C6: the corrected statement evaluated at a concrete input,
with the cleanliness hypothesis discharged. -/
theorem C6_witness :
    (∀ l ∈ [Line.blank false, Line.payload (.json false true false),
        Line.blank false], lineOk false l = true) ∧
    (streamLines false (fun _ => true)
        [Line.blank false, Line.payload (.json false true false),
          Line.blank false] false 0 =
      ([Line.blank false, Line.payload (.json false true false),
          Line.blank false].flatMap (lineEvents false),
        0 + [Line.blank false, Line.payload (.json false true false),
          Line.blank false].length, .finished) ∧
    keepAliveCount ([Line.blank false,
        Line.payload (.json false true false),
        Line.blank false].flatMap (lineEvents false)) =
      blankCount [Line.blank false, Line.payload (.json false true false),
        Line.blank false] ∧
    dispatchCount ([Line.blank false,
        Line.payload (.json false true false),
        Line.blank false].flatMap (lineEvents false)) =
      payloadCount [Line.blank false, Line.payload (.json false true false),
        Line.blank false]) :=
  ⟨by decide,
    C6_counts_and_order false 0
      [Line.blank false, Line.payload (.json false true false),
        Line.blank false] (by decide)⟩

/-- Claim C7 (confirmed): model `disconnect` taking effect before the m-th
read of the running flag by the observation oracle `fun j => decide (j < m)`
(true for the first m reads, false afterwards). Over any attempt script, the
whole session then performs at most m + 1 payload-dispatch or keep-alive
callbacks: every callback beyond the first is preceded by a distinct true
flag read, so at most one further already-read line is processed after the
flag is first observed false, and once a read returns false the loop exits
with no further callbacks (the bound covers the entire remaining trace of
the session). -/
theorem C7_disconnect_stops_promptly (mr : Nat) (rj : Bool) (m : Nat)
    (attempts : List Attempt) :
    cbCount (connectLoop mr rj (fun j => decide (j < m)) attempts 0 0
      5).events ≤ m + 1 := by
  have h := connectLoop_cancel mr rj m attempts 0 0 5
  omega

/-- Claim C8 (confirmed): whenever a credential is configured, every exit of
the connect loop — normal exhaustion, fatal protocol error, budget
exhaustion, the wait-cap break, external cancellation, or any exception
raised anywhere in the loop — reaches the `finally` block: the top-level call
returns with the transport session closed and the running flag false, for
every attempt script and every flag-observation oracle. -/
theorem C8_session_closed_on_exit (mr : Nat) (rj : Bool) (flag : Nat → Bool)
    (attempts : List Attempt) :
    ∃ r : ConnectResult, connect true mr rj flag attempts = .ok r ∧
      r.sessionClosed = true ∧ r.running = false :=
  ⟨_, rfl, rfl, rfl⟩

/-- Claim C9 (confirmed): when the running flag is true (a session is
active), a second top-level `sample` call fails fast with
`PyTwitterError("Stream is running")` before any transport activity: the
call returns that error for every configuration, and the number of
`session.get` calls it performs is zero. -/
theorem C9_already_running_fails_fast (auth : Bool) (mr : Nat) (rj : Bool)
    (flag : Nat → Bool) (attempts : List Attempt) :
    sample true auth mr rj flag attempts =
      .error (.pyTwitterError "Stream is running") ∧
    sampleAttempts (sample true auth mr rj flag attempts) = 0 :=
  ⟨rfl, rfl⟩

/-- Claim C10 (confirmed): with a credential configured, `_connect` never
propagates an exception to its caller: for every attempt script, every line
content (including unparseable payloads and payloads with an errors field),
every flag oracle, and every behavior of the user-supplied callbacks
(`on_tweet` or `on_keep_alive` raising included), the top-level call returns
`.ok`, and whatever exception the loop raised is recorded in the logged
field of the result instead of escaping. -/
theorem C10_connect_never_raises (mr : Nat) (rj : Bool) (flag : Nat → Bool)
    (attempts : List Attempt) :
    ∃ r : ConnectResult, connect true mr rj flag attempts = .ok r ∧
      r.logged = (connectLoop mr rj flag attempts 0 0 5).exc :=
  ⟨_, rfl, rfl⟩

end PyTwitter
